import Mathlib

/-!
Shallow embedding of `src/validator.py` (class `JsonSchemaValidator`).

JSON values are a tagged union. Python conflates booleans with integers
(`isinstance(True, int)` holds, `True == 1`); the embedding keeps booleans a
separate variant and models Python's `isinstance` checks and `==` explicitly,
so the translation of the type map and enum membership stays faithful to the
interpreter semantics the source runs under.

Numbers: Python number literals are ints or floats; floats are modelled as
exact rationals (every IEEE double is a dyadic rational, and Python's `==`
between int and float compares exact values).
-/

set_option maxHeartbeats 1000000
set_option linter.unnecessarySeqFocus false

inductive JValue where
  | null
  | bool (b : Bool)
  | int (n : Int)
  | float (q : Rat)
  | str (s : String)
  | arr (l : List JValue)
  | obj (fields : List (String × JValue))

namespace JValue

/-- Python `isinstance(x, str)`. -/
def isInstStr : JValue → Bool
  | .str _ => true
  | _ => false

/-- Python `isinstance(x, bool)`. -/
def isInstBool : JValue → Bool
  | .bool _ => true
  | _ => false

/-- Python `isinstance(x, int)` — in Python this is true for booleans as well,
since `bool` is a subclass of `int`. -/
def isInstInt : JValue → Bool
  | .int _ => true
  | .bool _ => true
  | _ => false

/-- Python `isinstance(x, float)`. -/
def isInstFloat : JValue → Bool
  | .float _ => true
  | _ => false

/-- Python `isinstance(x, dict)`. -/
def isInstDict : JValue → Bool
  | .obj _ => true
  | _ => false

/-- Python `isinstance(x, list)`. -/
def isInstList : JValue → Bool
  | .arr _ => true
  | _ => false

/-- Python `x is None`. -/
def isNone : JValue → Bool
  | .null => true
  | _ => false

end JValue

mutual
/-- Python `==` between these values: booleans compare equal to the integers
and floats 0/1 (`True == 1`), ints compare equal to floats of the same value,
lists compare elementwise, dicts compare key-set-and-value-wise (order
independent, keys are strings here since the values come from JSON). -/
def pyEq : JValue → JValue → Bool
  | .null, .null => true
  | .bool a, .bool b => a == b
  | .bool a, .int n => (if a then (1 : Int) else 0) == n
  | .int n, .bool a => n == (if a then (1 : Int) else 0)
  | .bool a, .float q => (if a then (1 : Rat) else 0) == q
  | .float q, .bool a => q == (if a then (1 : Rat) else 0)
  | .int a, .int b => a == b
  | .int a, .float q => (a : Rat) == q
  | .float q, .int a => q == (a : Rat)
  | .float a, .float b => a == b
  | .str a, .str b => a == b
  | .arr a, .arr b => pyEqList a b
  | .obj a, .obj b => a.length == b.length && pyEqFields a b
  | _, _ => false

def pyEqList : List JValue → List JValue → Bool
  | [], [] => true
  | x :: xs, y :: ys => pyEq x y && pyEqList xs ys
  | _, _ => false

/-- each key of the left dict must be present in the right with `==` value -/
def pyEqFields : List (String × JValue) → List (String × JValue) → Bool
  | [], _ => true
  | (k, v) :: rest, b =>
      (match b.find? (fun kv => kv.1 == k) with
        | some kv => pyEq v kv.2
        | none => false)
      && pyEqFields rest b
end

/-- A single-quote character (codepoint 39), as used by Python `repr` for
strings and by the validator's error messages. -/
def squote : String := String.singleton (Char.ofNat 39)

/-- Decimal expansion of the proper fraction `num/den`, fuel-bounded.
Python floats are dyadic rationals, whose decimal expansions terminate
(a double needs at most 1074 fractional digits). -/
def fracDigits : Nat → Nat → Nat → String
  | 0, _, _ => ""
  | _, 0, _ => ""
  | fuel + 1, num, den =>
    toString (num * 10 / den) ++ fracDigits fuel (num * 10 % den) den

/-- Python `str`/`repr` of a float, for floats modelled as exact dyadic
rationals: sign, integer part, and the (terminating) decimal fraction,
with `.0` when the value is whole — e.g. `1.0`, `-2.5`. -/
def pyFloatRepr (q : Rat) : String :=
  let sign := if q < 0 then "-" else ""
  let n := q.num.natAbs
  let d := q.den
  if n % d = 0 then sign ++ toString (n / d) ++ ".0"
  else sign ++ toString (n / d) ++ "." ++ fracDigits 1100 (n % d) d

/-- Escape backslashes and the quote character, as Python `repr` does inside
a quoted string (control-character escapes are not modelled). -/
def pyStrEscape (quote : Char) (s : String) : String :=
  String.mk (s.toList.foldr (fun c acc =>
    if c = '\\' then '\\' :: '\\' :: acc
    else if c = quote then '\\' :: c :: acc
    else c :: acc) [])

/-- Python `repr` of a `str`: single-quoted, unless the string contains a
single quote and no double quote, in which case double-quoted. -/
def pyReprStr (s : String) : String :=
  if s.toList.contains (Char.ofNat 39) && !s.toList.contains '"' then
    "\"" ++ pyStrEscape '"' s ++ "\""
  else
    squote ++ pyStrEscape (Char.ofNat 39) s ++ squote

mutual
/-- Python `repr` of a value: `None`/`True`/`False`, numerals, quoted
strings, and recursively bracketed lists and dicts. -/
def pyRepr : JValue → String
  | .null => "None"
  | .bool b => if b then "True" else "False"
  | .int n => toString n
  | .float q => pyFloatRepr q
  | .str s => pyReprStr s
  | .arr l => "[" ++ pyReprList l ++ "]"
  | .obj fs => "\x7b" ++ pyReprFields fs ++ "\x7d"

def pyReprList : List JValue → String
  | [] => ""
  | [x] => pyRepr x
  | x :: rest => pyRepr x ++ ", " ++ pyReprList rest

def pyReprFields : List (String × JValue) → String
  | [] => ""
  | [(k, v)] => pyReprStr k ++ ": " ++ pyRepr v
  | (k, v) :: rest => pyReprStr k ++ ": " ++ pyRepr v ++ ", " ++ pyReprFields rest
end

/-- Python `str` of a value: the string itself for `str`, `repr` otherwise
(for `None`, booleans, numbers, lists and dicts, `str` and `repr` agree). -/
def pyStr : JValue → String
  | .str s => s
  | .null => pyRepr .null
  | .bool b => pyRepr (.bool b)
  | .int n => pyRepr (.int n)
  | .float q => pyRepr (.float q)
  | .arr l => pyRepr (.arr l)
  | .obj fs => pyRepr (.obj fs)


/-- Regular expressions, as a model of the patterns the validator hands to
Python's `re` module (the module itself is not part of this repository). -/
inductive Regex where
  | void
  | eps
  | chr (c : Char)
  | any
  | alt (a b : Regex)
  | cat (a b : Regex)
  | star (a : Regex)

/-- Does the regex accept the empty string? -/
def nullable : Regex → Bool
  | .void => false
  | .eps => true
  | .chr _ => false
  | .any => false
  | .alt a b => nullable a || nullable b
  | .cat a b => nullable a && nullable b
  | .star _ => true

/-- Brzozowski derivative of a regex by one character. -/
def rderiv : Regex → Char → Regex
  | .void, _ => .void
  | .eps, _ => .void
  | .chr c, x => if x = c then .eps else .void
  | .any, _ => .eps
  | .alt a b, x => .alt (rderiv a x) (rderiv b x)
  | .cat a b, x =>
      if nullable a then .alt (.cat (rderiv a x) b) (rderiv b x)
      else .cat (rderiv a x) b
  | .star a, x => .cat (rderiv a x) (.star a)

/-- Whole-string match via derivatives (the semantics of `re.fullmatch`). -/
def rmatch : Regex → List Char → Bool
  | r, [] => nullable r
  | r, c :: cs => rmatch (rderiv r c) cs

/-- Match anchored at the start but allowed to stop anywhere: succeeds iff
some prefix of the input matches (the semantics of `re.match`). -/
def matchStart : Regex → List Char → Bool
  | r, [] => nullable r
  | r, c :: cs => nullable r || matchStart (rderiv r c) cs

/-- Characters that are not plain literals in a Python regex; the modelled
pattern fragment treats them as atoms only where it implements them. -/
def regexMeta : List Char :=
  ['*', '+', '?', '[', ']', '(', ')', '|', '\\', '^', '$', '\x7b', '\x7d']

/-- Modelled from the spec: the parser of the `re` pattern syntax fragment
the validator relies on (the `re` module itself is outside this repository).
Covers literal characters, `.`, the postfix repeats `*`/`+`/`?`, and a
leading `^` (redundant under match-from-start semantics, per §4.2c of the
spec); any other metacharacter use is rejected, as `re.compile` rejects e.g.
an unterminated `[` or a repeat with nothing to repeat. -/
def parseSeq : List Char → Option Regex
  | [] => some .eps
  | [c] =>
    if regexMeta.contains c then none
    else some (Regex.cat (if c = '.' then Regex.any else Regex.chr c) .eps)
  | c :: d :: rest =>
    if regexMeta.contains c then none
    else
      let atom := if c = '.' then Regex.any else Regex.chr c
      if d = '*' then (parseSeq rest).map (fun t => Regex.cat (.star atom) t)
      else if d = '+' then (parseSeq rest).map (fun t => Regex.cat (.cat atom (.star atom)) t)
      else if d = '?' then (parseSeq rest).map (fun t => Regex.cat (.alt atom .eps) t)
      else (parseSeq (d :: rest)).map (fun t => Regex.cat atom t)

/-- Modelled from the spec: `re.compile` on the fragment — an optional
leading `^` then a sequence of atoms. `none` models `re.error`. -/
def parsePattern (p : String) : Option Regex :=
  match p.toList with
  | '^' :: rest => parseSeq rest
  | l => parseSeq l


/-- Lookup of a key in a dict (Python dict keys are unique; the first
occurrence is taken). Models both `"k" in schema` (`isSome`) and
`schema["k"]`. -/
def lookupStr (k : String) : List (String × JValue) → Option JValue
  | [] => none
  | (k2, v) :: rest => if k2 = k then some v else lookupStr k rest

/-- Python `value in container`: for a list, `==` against some element; for a
str, substring test (only str operands); for a dict, key membership. -/
def pyIn (v : JValue) (container : JValue) : Bool :=
  match container with
  | .arr l => l.any (fun e => pyEq v e)
  | .str s =>
      match v with
      | .str vs => decide (vs.toList <:+: s.toList)
      | _ => false
  | .obj fs => fs.any (fun kv => pyEq v (.str kv.1))
  | _ => false

/-- Embeds `_check_single_type` (src/validator.py lines 64-74): `type_map.get` on
the seven recognized names, defaulting to an always-false check; a non-string
name matches no key, so it also falls to the default. -/
def checkSingleType (value : JValue) (t : JValue) : Bool :=
  match t with
  | .str s =>
      if s = "string" then value.isInstStr
      else if s = "number" then (value.isInstInt || value.isInstFloat) && !value.isInstBool
      else if s = "integer" then value.isInstInt && !value.isInstBool
      else if s = "boolean" then value.isInstBool
      else if s = "object" then value.isInstDict
      else if s = "array" then value.isInstList
      else if s = "null" then value.isNone
      else false
  | _ => false

/-- The validator appends to a single error list that `validate` clears on
entry; each embedded check returns the pair (its boolean result, the errors
it appended, in order), and callers concatenate in program order. -/
def typeMismatchMsg (value : JValue) (expected : JValue) (path : String) : String :=
  match expected with
  | .arr ts =>
      path ++ ": Value " ++ pyReprStr (pyStr value) ++ " is not one of types " ++ pyStr (.arr ts)
  | t => path ++ ": Value " ++ pyReprStr (pyStr value) ++ " is not of type " ++ pyStr t

/-- Embeds `_validate_type` (src/validator.py lines 51-62): a list of type names is
a logical OR over `_check_single_type`; a single name is checked directly.
One error is appended on failure. -/
def validateType (value : JValue) (expected : JValue) (path : String) : Bool × List String :=
  match expected with
  | .arr ts =>
      if ts.any (fun t => checkSingleType value t) then (true, [])
      else (false, [typeMismatchMsg value (.arr ts) path])
  | t =>
      if checkSingleType value t then (true, [])
      else (false, [typeMismatchMsg value t path])

/-- Embeds `_validate_enum` (src/validator.py lines 76-80): Python membership
`value not in enum_values`. -/
def validateEnum (value : JValue) (enumValues : JValue) (path : String) : Bool × List String :=
  if pyIn value enumValues then (true, [])
  else (false, [path ++ ": Value " ++ pyReprStr (pyStr value) ++ " is not in enum " ++ pyStr enumValues])

/-- Embeds `_validate_pattern` (src/validator.py lines 82-90): `re.match(pattern,
value)` under try/except — an unparsable pattern (`re.error`) becomes an
"Invalid regex pattern" record, a parsed pattern is matched from the start
of the string. -/
def validatePattern (value : String) (pattern : String) (path : String) : Bool × List String :=
  match parsePattern pattern with
  | none => (false, [path ++ ": Invalid regex pattern " ++ squote ++ pattern ++ squote])
  | some r =>
      if matchStart r value.toList then (true, [])
      else (false, [path ++ ": String " ++ squote ++ value ++ squote ++ " doesn" ++ squote ++ "t match pattern " ++ squote ++ pattern ++ squote])

/-- What Python iterates over in `for prop in required_props`: the elements
of a list, the characters of a str, the keys of a dict (other operands raise
and are outside the model — the app only ever passes decoded JSON). -/
def reqIter : JValue → List JValue
  | .arr l => l
  | .str s => s.toList.map (fun c => .str (String.singleton c))
  | .obj fs => fs.map (fun kv => .str kv.1)
  | _ => []

/-- The loop body of `_validate_required` (src/validator.py lines 92-98):
`valid` starts true, every missing key appends its own error and clears
`valid`, and the loop never exits early. -/
def requiredLoop (objFields : List (String × JValue)) (props : List JValue) (path : String) : Bool × List String :=
  match props with
  | [] => (true, [])
  | p :: rest =>
      let tail := requiredLoop objFields rest path
      if pyIn p (.obj objFields) then tail
      else (false, (path ++ ": Missing required property " ++ squote ++ pyStr p ++ squote) :: tail.2)

/-- Embeds `_validate_required` (src/validator.py lines 92-98). -/
def validateRequired (objFields : List (String × JValue)) (required : JValue) (path : String) : Bool × List String :=
  requiredLoop objFields (reqIter required) path

/-- The early-return ladder of `_validate_value`: if the check so far has
failed, return its verdict and errors at once (the Python `return False`);
otherwise run the rest of the ladder after the errors appended so far. -/
def step (a : Bool × List String) (b : Bool × List String) : Bool × List String :=
  if a.1 then (b.1, a.2 ++ b.2) else a

/-- Embeds `if "type" in schema: if not self._validate_type(...)`. -/
def typeStep (value : JValue) (sf : List (String × JValue)) (path : String) : Bool × List String :=
  match lookupStr "type" sf with
  | some t => validateType value t path
  | none => (true, [])

/-- Embeds `if "enum" in schema: ...`. -/
def enumStep (value : JValue) (sf : List (String × JValue)) (path : String) : Bool × List String :=
  match lookupStr "enum" sf with
  | some e => validateEnum value e path
  | none => (true, [])

/-- Embeds `if "pattern" in schema and isinstance(value, str): ...`. -/
def patternStep (value : JValue) (sf : List (String × JValue)) (path : String) : Bool × List String :=
  match lookupStr "pattern" sf, value with
  | some (.str pat), .str sv => validatePattern sv pat path
  | _, _ => (true, [])

/-- Embeds `if "required" in schema and isinstance(value, dict): ...`. -/
def requiredStep (value : JValue) (sf : List (String × JValue)) (path : String) : Bool × List String :=
  match lookupStr "required" sf, value with
  | some req, .obj vf => validateRequired vf req path
  | _, _ => (true, [])

mutual
/-- Embeds `_validate_value` (src/validator.py lines 20-49): reject a non-dict
schema, then run the six keyword checks in order, each gated by presence
(and by the value's kind for pattern/required/properties/items), returning
False as soon as one fails; properties and items recurse per child. -/
def validateValue (value : JValue) (schema : JValue) (path : String) : Bool × List String :=
  match schema with
  | .obj sf =>
      step (typeStep value sf path)
      (step (enumStep value sf path)
      (step (patternStep value sf path)
      (step (requiredStep value sf path)
      (step (match lookupStr "properties" sf, value with
        | some props, .obj vf => validateProperties vf props path
        | _, _ => (true, []))
      (match lookupStr "items" sf, value with
        | some isch, .arr l => validateItems l isch path 0
        | _, _ => (true, []))))))
  | _ => (false, [path ++ ": Schema must be an object"])

/-- Embeds `_validate_properties` (src/validator.py lines 100-107): iterate the
value's own fields in order; a field named in the `properties` dict recurses
with the path extended by `.key` (`key` alone at the root), others are
skipped; failures clear `valid` but never stop the loop. -/
def validateProperties (objFields : List (String × JValue)) (props : JValue) (path : String) : Bool × List String :=
  match objFields with
  | [] => (true, [])
  | (k, v) :: rest =>
      let head := match props with
        | .obj ps =>
            match lookupStr k ps with
            | some sub => validateValue v sub (if path = "" then k else path ++ "." ++ k)
            | none => (true, [])
        | _ => (true, [])
      let tail := validateProperties rest props path
      (head.1 && tail.1, head.2 ++ tail.2)

/-- Embeds `_validate_array_items` (src/validator.py lines 109-115): every element
is validated against the same `items` schema at path `path[i]`; failures
clear `valid` but never stop the loop. -/
def validateItems (elems : List JValue) (itemsSchema : JValue) (path : String) (i : Nat) : Bool × List String :=
  match elems with
  | [] => (true, [])
  | x :: rest =>
      let head := validateValue x itemsSchema (path ++ "[" ++ toString i ++ "]")
      let tail := validateItems rest itemsSchema path (i + 1)
      (head.1 && tail.1, head.2 ++ tail.2)
end

/-- The loop body of `_validate_properties` for one field of the value. -/
def propCheck (k : String) (v : JValue) (props : JValue) (path : String) : Bool × List String :=
  match props with
  | .obj ps =>
      match lookupStr k ps with
      | some sub => validateValue v sub (if path = "" then k else path ++ "." ++ k)
      | none => (true, [])
  | _ => (true, [])

/-- Embeds `validate` (src/validator.py lines 12-15): clear the error list, then
run `_validate_value` at the root path `""`; the pair is (returned boolean,
contents of the error list when the call returns, which `get_errors`
reads back). -/
def validate (document : JValue) (schema : JValue) : Bool × List String :=
  validateValue document schema ""

mutual
/-- Size of a value, for strong induction along the recursion of
`_validate_value` (which descends only into the value). -/
def jsize : JValue → Nat
  | .null => 1
  | .bool _ => 1
  | .int _ => 1
  | .float _ => 1
  | .str _ => 1
  | .arr l => 1 + jsizeList l
  | .obj fs => 1 + jsizeFields fs

def jsizeList : List JValue → Nat
  | [] => 0
  | x :: xs => 1 + jsize x + jsizeList xs

def jsizeFields : List (String × JValue) → Nat
  | [] => 0
  | kv :: xs => 1 + jsize kv.2 + jsizeFields xs
end

/-- The validator's core bookkeeping invariant: a check reports success
exactly when it appended no error. -/
def resultInv (r : Bool × List String) : Prop := r.1 = true ↔ r.2 = []

lemma jsize_pos (v : JValue) : 0 < jsize v := by
  cases v <;> simp [jsize]

lemma jsize_lt_of_mem_list {x : JValue} {l : List JValue} (h : x ∈ l) :
    jsize x < jsize (.arr l) := by
  simp only [jsize]
  induction l with
  | nil => cases h
  | cons y ys ih =>
    rcases List.mem_cons.mp h with rfl | h2
    · simp [jsizeList]; omega
    · have := ih h2
      simp only [jsizeList] at *
      omega

lemma jsize_lt_of_mem_fields {kv : String × JValue} {fs : List (String × JValue)}
    (h : kv ∈ fs) : jsize kv.2 < jsize (.obj fs) := by
  simp only [jsize]
  induction fs with
  | nil => cases h
  | cons y ys ih =>
    rcases List.mem_cons.mp h with rfl | h2
    · simp [jsizeFields]; omega
    · have := ih h2
      simp only [jsizeFields] at *
      omega

lemma resultInv_step {a b : Bool × List String} (ha : resultInv a) (hb : resultInv b) :
    resultInv (step a b) := by
  unfold resultInv step at *
  by_cases h : a.1 = true
  · simp [h, ha.mp h, hb]
  · simp [Bool.not_eq_true] at h
    simp [h]
    intro hcon
    rw [ha.mpr hcon] at h
    cases h

lemma resultInv_validateType (v t : JValue) (p : String) :
    resultInv (validateType v t p) := by
  unfold resultInv validateType
  cases t <;> simp <;> split_ifs <;> simp

lemma resultInv_validateEnum (v e : JValue) (p : String) :
    resultInv (validateEnum v e p) := by
  unfold resultInv validateEnum
  split_ifs <;> simp

lemma resultInv_validatePattern (s pat p : String) :
    resultInv (validatePattern s pat p) := by
  unfold resultInv validatePattern
  cases parsePattern pat <;> simp <;> split_ifs <;> simp


lemma validateValue_not_dict (v s : JValue) (p : String) (h : s.isInstDict = false) :
    validateValue v s p = (false, [p ++ ": Schema must be an object"]) := by
  cases s <;> simp [JValue.isInstDict] at h ⊢ <;> simp [validateValue]

lemma validateProperties_nil (props : JValue) (p : String) :
    validateProperties [] props p = (true, []) := by simp [validateProperties]

lemma validateProperties_cons (k : String) (v : JValue) (rest : List (String × JValue))
    (props : JValue) (p : String) :
    validateProperties ((k, v) :: rest) props p =
      ((propCheck k v props p).1 && (validateProperties rest props p).1,
       (propCheck k v props p).2 ++ (validateProperties rest props p).2) := by
  rfl

lemma validateItems_nil (isch : JValue) (p : String) (i : Nat) :
    validateItems [] isch p i = (true, []) := by simp [validateItems]

lemma validateItems_cons (x : JValue) (rest : List JValue) (isch : JValue) (p : String) (i : Nat) :
    validateItems (x :: rest) isch p i =
      ((validateValue x isch (p ++ "[" ++ toString i ++ "]")).1 && (validateItems rest isch p (i + 1)).1,
       (validateValue x isch (p ++ "[" ++ toString i ++ "]")).2 ++ (validateItems rest isch p (i + 1)).2) := by
  simp [validateItems]

lemma propCheck_eq (k : String) (v : JValue) (props : JValue) (p : String) :
    propCheck k v props p =
      (match props with
        | .obj ps =>
            match lookupStr k ps with
            | some sub => validateValue v sub (if p = "" then k else p ++ "." ++ k)
            | none => ((true : Bool), ([] : List String))
        | _ => ((true : Bool), ([] : List String))) := by
  cases props <;> simp [propCheck]

lemma resultInv_requiredLoop (vf : List (String × JValue)) (props : List JValue) (p : String) :
    resultInv (requiredLoop vf props p) := by
  induction props with
  | nil => simp [resultInv, requiredLoop]
  | cons q rest ih =>
    rw [requiredLoop]
    split_ifs with h
    · exact ih
    · simp [resultInv]

lemma resultInv_validateRequired (vf : List (String × JValue)) (req : JValue) (p : String) :
    resultInv (validateRequired vf req p) := by
  unfold validateRequired
  exact resultInv_requiredLoop vf (reqIter req) p

lemma resultInv_pair {a b : Bool × List String} (ha : resultInv a) (hb : resultInv b) :
    resultInv (a.1 && b.1, a.2 ++ b.2) := by
  unfold resultInv at *
  simp only [Bool.and_eq_true, List.append_eq_nil]
  constructor
  · rintro ⟨h1, h2⟩
    exact ⟨ha.mp h1, hb.mp h2⟩
  · rintro ⟨h1, h2⟩
    exact ⟨ha.mpr h1, hb.mpr h2⟩

lemma resultInv_propCheck (k : String) (v : JValue) (props : JValue) (p : String)
    (ih : ∀ s2 p2, resultInv (validateValue v s2 p2)) :
    resultInv (propCheck k v props p) := by
  rw [propCheck_eq]
  cases props <;> simp [resultInv]
  case obj ps =>
    cases lookupStr k ps with
    | none => simp [resultInv]
    | some sub => exact ih sub _

lemma resultInv_validateProperties (vf : List (String × JValue)) (props : JValue) (p : String)
    (ih : ∀ kv ∈ vf, ∀ s2 p2, resultInv (validateValue kv.2 s2 p2)) :
    resultInv (validateProperties vf props p) := by
  induction vf with
  | nil => simp [resultInv, validateProperties_nil]
  | cons kv rest ihl =>
    obtain ⟨k, v⟩ := kv
    rw [validateProperties_cons]
    exact resultInv_pair
      (resultInv_propCheck k v props p (fun s2 p2 => ih (k, v) (List.mem_cons_self _ _) s2 p2))
      (ihl (fun kv2 h2 => ih kv2 (List.mem_cons_of_mem _ h2)))

lemma resultInv_validateItems (l : List JValue) (isch : JValue) (p : String) (i : Nat)
    (ih : ∀ x ∈ l, ∀ s2 p2, resultInv (validateValue x s2 p2)) :
    resultInv (validateItems l isch p i) := by
  induction l generalizing i with
  | nil => simp [resultInv, validateItems_nil]
  | cons x rest ihl =>
    rw [validateItems_cons]
    exact resultInv_pair
      (ih x (List.mem_cons_self _ _) isch _)
      (ihl (i + 1) (fun y h2 => ih y (List.mem_cons_of_mem _ h2)))

lemma resultInv_validateValue (v s : JValue) (p : String) :
    resultInv (validateValue v s p) := by
  have main : ∀ n v s p, jsize v ≤ n → resultInv (validateValue (v : JValue) s p) := by
    intro n
    induction n using Nat.strong_induction_on with
    | _ n ihn =>
      intro v s p hv
      have ihv : ∀ v2, jsize v2 < jsize v → ∀ s2 p2, resultInv (validateValue v2 s2 p2) := by
        intro v2 h2 s2 p2
        exact ihn (jsize v2) (Nat.lt_of_lt_of_le h2 hv) v2 s2 p2 le_rfl
      cases s with
      | obj sf =>
        unfold validateValue
        apply resultInv_step
        · unfold typeStep
          cases lookupStr "type" sf with
          | none => simp [resultInv]
          | some t => exact resultInv_validateType v t p
        apply resultInv_step
        · unfold enumStep
          cases lookupStr "enum" sf with
          | none => simp [resultInv]
          | some e => exact resultInv_validateEnum v e p
        apply resultInv_step
        · unfold patternStep
          cases lookupStr "pattern" sf with
          | none => cases v <;> simp [resultInv]
          | some pv =>
            cases pv <;> cases v
            all_goals try exact resultInv_validatePattern _ _ p
            all_goals simp [resultInv]
        apply resultInv_step
        · unfold requiredStep
          cases lookupStr "required" sf with
          | none => cases v <;> simp [resultInv]
          | some req =>
            cases v
            all_goals try exact resultInv_validateRequired _ req p
            all_goals simp [resultInv]
        apply resultInv_step
        · cases lookupStr "properties" sf with
          | none => cases v <;> simp [resultInv]
          | some props =>
            cases v <;> simp [resultInv]
            case obj vf =>
              exact resultInv_validateProperties vf props p
                (fun kv hm s2 p2 => ihv kv.2 (jsize_lt_of_mem_fields hm) s2 p2)
        · cases lookupStr "items" sf with
          | none => cases v <;> simp [resultInv]
          | some isch =>
            cases v <;> simp [resultInv]
            case arr l =>
              exact resultInv_validateItems l isch p 0
                (fun x hm s2 p2 => ihv x (jsize_lt_of_mem_list hm) s2 p2)
      | null => exact (validateValue_not_dict v .null p rfl) ▸ (by simp [resultInv])
      | bool b => exact (validateValue_not_dict v (.bool b) p rfl) ▸ (by simp [resultInv])
      | int m => exact (validateValue_not_dict v (.int m) p rfl) ▸ (by simp [resultInv])
      | float q => exact (validateValue_not_dict v (.float q) p rfl) ▸ (by simp [resultInv])
      | str s2 => exact (validateValue_not_dict v (.str s2) p rfl) ▸ (by simp [resultInv])
      | arr l => exact (validateValue_not_dict v (.arr l) p rfl) ▸ (by simp [resultInv])
  exact main (jsize v) v s p le_rfl

lemma lookupStr_eq_none_of_forall_ne (k : String) (sf : List (String × JValue))
    (h : ∀ kv ∈ sf, kv.1 ≠ k) : lookupStr k sf = none := by
  induction sf with
  | nil => rfl
  | cons kv rest ih =>
    rw [lookupStr]
    rw [if_neg (h kv (List.mem_cons_self _ _))]
    exact ih (fun kv2 h2 => h kv2 (List.mem_cons_of_mem _ h2))

/-- The function `matchStart` succeeds exactly when some prefix of the input fully
matches: match-from-start semantics, not full-string anchoring. -/
lemma matchStart_iff_exists_split (r : Regex) (s : List Char) :
    matchStart r s = true ↔ ∃ pre rest, s = pre ++ rest ∧ rmatch r pre = true := by
  induction s generalizing r with
  | nil =>
    constructor
    · intro h
      exact ⟨[], [], rfl, h⟩
    · rintro ⟨pre, rest, hpq, hm⟩
      obtain ⟨rfl, -⟩ := List.append_eq_nil.mp hpq.symm
      exact hm
  | cons c cs ih =>
    rw [matchStart]
    rw [Bool.or_eq_true]
    constructor
    · rintro (h | h)
      · exact ⟨[], c :: cs, rfl, h⟩
      · obtain ⟨pre, rest, hpq, hm⟩ := (ih (rderiv r c)).mp h
        exact ⟨c :: pre, rest, by rw [hpq, List.cons_append], hm⟩
    · rintro ⟨pre, rest, hpq, hm⟩
      cases pre with
      | nil =>
        left
        exact hm
      | cons c2 p2 =>
        rw [List.cons_append] at hpq
        obtain ⟨rfl, hcs⟩ : c = c2 ∧ cs = p2 ++ rest := by
          constructor
          · exact (List.cons.injEq _ _ _ _ ▸ hpq).1
          · exact (List.cons.injEq _ _ _ _ ▸ hpq).2
        right
        exact (ih (rderiv r c)).mpr ⟨p2, rest, hcs, hm⟩

/-- C1: for every value and schema (and any prior error-list state, which
`validate` clears on entry), `validate` returns `true` exactly when the
error list it leaves behind — what `get_errors()` returns — is empty, i.e.
when no error record was appended during the call. -/
theorem claim_C1_valid_iff_errors_empty (v s : JValue) :
    (validate v s).1 = true ↔ (validate v s).2 = [] :=
  resultInv_validateValue v s ""

/-- C2: when a node's schema has `type` and the type check fails, the node
reports exactly the type check's errors — no enum/pattern/required/
properties/items error from that node is appended (per-node short-circuit);
and the properties/items recursions, once reached, visit every child:
splitting the field or element list splits the verdict conjunctively and
concatenates the error lists, so no child is skipped after a failure. -/
theorem claim_C2_type_short_circuit_but_children_visited :
    (∀ (v : JValue) (sf : List (String × JValue)) (p : String) (t : JValue) (r : List String),
        lookupStr "type" sf = some t → validateType v t p = (false, r) →
        validateValue v (.obj sf) p = (false, r)) ∧
    (∀ (f1 f2 : List (String × JValue)) (props : JValue) (p : String),
        validateProperties (f1 ++ f2) props p =
          ((validateProperties f1 props p).1 && (validateProperties f2 props p).1,
           (validateProperties f1 props p).2 ++ (validateProperties f2 props p).2)) ∧
    (∀ (l1 l2 : List JValue) (isch : JValue) (p : String) (i : Nat),
        validateItems (l1 ++ l2) isch p i =
          ((validateItems l1 isch p i).1 && (validateItems l2 isch p (i + l1.length)).1,
           (validateItems l1 isch p i).2 ++ (validateItems l2 isch p (i + l1.length)).2)) := by
  refine ⟨?_, ?_, ?_⟩
  · intro v sf p t r h1 h2
    unfold validateValue typeStep
    rw [h1]
    show step (validateType v t p) _ = (false, r)
    rw [h2]
    simp [step]
  · intro f1 f2 props p
    induction f1 with
    | nil =>
      rw [List.nil_append, validateProperties_nil]
      simp
    | cons kv rest ih =>
      obtain ⟨k, v⟩ := kv
      rw [List.cons_append, validateProperties_cons, validateProperties_cons, ih]
      rw [Bool.and_assoc, List.append_assoc]
  · intro l1 l2 isch p i
    induction l1 generalizing i with
    | nil =>
      rw [List.nil_append, validateItems_nil]
      simp
    | cons x rest ih =>
      rw [List.cons_append, validateItems_cons, validateItems_cons, ih (i + 1)]
      rw [List.length_cons]
      rw [show i + (rest.length + 1) = i + 1 + rest.length from by omega]
      rw [Bool.and_assoc, List.append_assoc]

/-- C2 witness: a schema with both `type` and `enum`, where the type check
fails: only the type error is reported, the enum check never runs. -/
theorem claim_C2_witness :
    validateValue (.int 5) (.obj [("type", .str "string"), ("enum", .arr [.int 1])]) "" =
      (false, [": Value " ++ squote ++ "5" ++ squote ++ " is not of type string"]) :=
  claim_C2_type_short_circuit_but_children_visited.1 (.int 5)
    [("type", .str "string"), ("enum", .arr [.int 1])] "" (.str "string")
    [": Value " ++ squote ++ "5" ++ squote ++ " is not of type string"]
    (by rfl) (by decide)

/-- C3 (code evaluated at the claim's inputs): the claim says a boolean is
never enum-equal to the integers 0/1, so `validate(True, {"enum": [1]})`
should fail the enum check; the code instead uses Python `in`, under which
`True == 1` and `False == 0`, so both calls succeed with no error. -/
theorem claim_C3_code_accepts_bool_for_int_enum :
    validate (.bool true) (.obj [("enum", .arr [.int 1])]) = (true, []) ∧
    validate (.bool false) (.obj [("enum", .arr [.int 0])]) = (true, []) ∧
    pyIn (.bool true) (.arr [.int 1]) = true := by
  refine ⟨by rfl, by rfl, by rfl⟩

/-- C4: a boolean value never satisfies the type names `number` or
`integer`, whether `type` is that single name or a list of such names
(the `not isinstance(x, bool)` guard in the type map excludes the
bool-is-int conflation). -/
theorem claim_C4_bool_never_number_or_integer :
    (∀ (b : Bool) (t : String), t = "number" ∨ t = "integer" →
        checkSingleType (.bool b) (.str t) = false) ∧
    (∀ (b : Bool) (ts : List JValue) (p : String),
        (∀ t ∈ ts, t = JValue.str "number" ∨ t = JValue.str "integer") →
        (validateType (.bool b) (.arr ts) p).1 = false) := by
  have single : ∀ (b : Bool) (t : String), t = "number" ∨ t = "integer" →
      checkSingleType (.bool b) (.str t) = false := by
    rintro b t (rfl | rfl) <;> cases b <;> rfl
  refine ⟨single, ?_⟩
  intro b ts p h
  have hany : ts.any (fun t => checkSingleType (.bool b) t) = false := by
    rw [List.any_eq_false]
    intro t ht
    rcases h t ht with rfl | rfl
    · simp [single b "number" (Or.inl rfl)]
    · simp [single b "integer" (Or.inr rfl)]
  have hval : validateType (.bool b) (.arr ts) p =
      (false, [typeMismatchMsg (.bool b) (.arr ts) p]) := by
    unfold validateType
    simp [hany]
  rw [hval]

/-- C4 witness: `True` against `{"type": ["number", "integer"]}` fails. -/
theorem claim_C4_witness :
    (validateType (.bool true) (.arr [.str "number", .str "integer"]) "").1 = false :=
  claim_C4_bool_never_number_or_integer.2 true [.str "number", .str "integer"] ""
    (by
      intro t ht
      rcases List.mem_cons.mp ht with rfl | ht2
      · exact Or.inl rfl
      rcases List.mem_cons.mp ht2 with rfl | ht3
      · exact Or.inr rfl
      cases ht3)

/-- C5 counterexample: the claim says the whole float `1.0` satisfies the
type name `integer`; in the code `isinstance(1.0, int)` is false, so the
check fails and validating `1.0` against `{"type": "integer"}` reports a
type mismatch. -/
theorem claim_C5_counterexample :
    checkSingleType (.float 1) (.str "integer") = false ∧
    validate (.float 1) (.obj [("type", .str "integer")]) =
      (false, [": Value " ++ squote ++ "1.0" ++ squote ++ " is not of type integer"]) := by
  refine ⟨by rfl, by decide⟩

/-- C5 (amended): the type name `integer` accepts exactly the values of the
integer variant — booleans are excluded by the `isinstance(x, bool)` guard
and whole floats such as `1.0` are excluded because a Python float is not an
`int` instance. -/
theorem claim_C5_integer_is_int_variant (v : JValue) :
    checkSingleType v (.str "integer") = true ↔ ∃ n : Int, v = .int n := by
  cases v <;> simp [checkSingleType, JValue.isInstInt, JValue.isInstBool]

/-- C6: a schema object mentioning none of the six recognized keywords
validates every value with no errors: unrecognized keys are ignored. -/
theorem claim_C6_vacuous_schema (v : JValue) (sf : List (String × JValue))
    (h : ∀ kv ∈ sf,
      kv.1 ∉ (["type", "enum", "pattern", "required", "properties", "items"] : List String)) :
    validate v (.obj sf) = (true, []) := by
  have hk : ∀ k ∈ (["type", "enum", "pattern", "required", "properties", "items"] : List String),
      lookupStr k sf = none := by
    intro k hkmem
    apply lookupStr_eq_none_of_forall_ne
    intro kv hkv heq
    exact h kv hkv (heq ▸ hkmem)
  unfold validate validateValue typeStep enumStep patternStep requiredStep
  rw [hk "type" (by simp), hk "enum" (by simp), hk "pattern" (by simp),
    hk "required" (by simp), hk "properties" (by simp), hk "items" (by simp)]
  cases v <;> rfl

/-- C6 witness: an unrecognized key is ignored. -/
theorem claim_C6_witness :
    validate (.int 3) (.obj [("foo", .int 1), ("bar", .str "x")]) = (true, []) :=
  claim_C6_vacuous_schema (.int 3) [("foo", .int 1), ("bar", .str "x")] (by decide)

/-- C7: for a string value and a pattern the engine can parse, the pattern
check succeeds exactly when some prefix of the string fully matches the
regex — match-from-start semantics, not full-string anchoring; in
particular `^a` accepts `abc` and rejects `bca`. -/
theorem claim_C7_pattern_matches_from_start :
    (∀ (sv pat p : String) (r : Regex), parsePattern pat = some r →
        ((validatePattern sv pat p).1 = true ↔
          ∃ pre rest, sv.toList = pre ++ rest ∧ rmatch r pre = true)) ∧
    validate (.str "abc") (.obj [("pattern", .str "^a")]) = (true, []) ∧
    (validate (.str "bca") (.obj [("pattern", .str "^a")])).1 = false := by
  refine ⟨?_, by decide, by decide⟩
  intro sv pat p r hp
  unfold validatePattern
  rw [hp]
  rw [← matchStart_iff_exists_split]
  by_cases h : matchStart r sv.data = true <;> simp [h]

/-- C7 witness: the prefix characterization applied to `^a` on `abc`. -/
theorem claim_C7_witness :
    (validatePattern "abc" "^a" "").1 = true ↔
      ∃ pre rest, "abc".toList = pre ++ rest ∧
        rmatch (Regex.cat (.chr 'a') .eps) pre = true :=
  claim_C7_pattern_matches_from_start.1 "abc" "^a" "" (Regex.cat (.chr 'a') .eps) (by rfl)

/-- C8: a pattern the engine cannot parse makes the pattern check fail with
an "Invalid regex pattern" record — the embedded check is a total function
returning a boolean and an error list, so no exception escapes. -/
theorem claim_C8_invalid_pattern_is_error_record (sv pat p : String)
    (h : parsePattern pat = none) :
    validatePattern sv pat p =
      (false, [p ++ ": Invalid regex pattern " ++ squote ++ pat ++ squote]) := by
  unfold validatePattern
  rw [h]

/-- C8 witness: the unterminated class `[` is rejected by the parser and
reported as an invalid-pattern error record. -/
theorem claim_C8_witness :
    validatePattern "abc" "[" "" =
      (false, [": Invalid regex pattern " ++ squote ++ "[" ++ squote]) :=
  claim_C8_invalid_pattern_is_error_record "abc" "[" "" (by rfl)

/-- C9: the required check walks the whole `required` list without
short-circuiting; the verdict is the conjunction of per-name membership, and
the error list has exactly one missing-required-property record, at the
node's own path, for each listed name absent from the object (so two missing
keys give exactly two errors). -/
theorem claim_C9_required_reports_every_missing_name
    (vf : List (String × JValue)) (names : List JValue) (p : String) :
    validateRequired vf (.arr names) p =
      (names.all (fun e => pyIn e (.obj vf)),
       (names.filter (fun e => !pyIn e (.obj vf))).map
         (fun e => p ++ ": Missing required property " ++ squote ++ pyStr e ++ squote)) := by
  unfold validateRequired reqIter
  induction names with
  | nil => rfl
  | cons q rest ih =>
    rw [requiredLoop]
    by_cases h : pyIn q (.obj vf) = true
    · rw [if_pos h, ih]
      simp [List.all_cons, List.filter_cons, h]
    · rw [if_neg h]
      simp only [Bool.not_eq_true] at h
      rw [ih]
      simp [List.all_cons, List.filter_cons, h]

lemma root_colon_value (a b c : String) :
    ∃ tail, ": Value " ++ a ++ b ++ c = ": " ++ tail :=
  ⟨"Value " ++ a ++ b ++ c, rfl⟩

lemma colon_append (a b : String) (h : ∃ t, a = ": " ++ t) :
    ∃ t, a ++ b = ": " ++ t := by
  obtain ⟨t, rfl⟩ := h
  exact ⟨t ++ b, String.append_assoc _ _ _⟩

/-- C10: the root is the empty path and every message is prefixed with the
path followed by `": "`, so every error produced at the document root is a
string beginning with `": "`. Every error record the engine ever appends
comes from one of the six producers below, at the path of the node that
appends it; at the root that path is `""`, and each conjunct covers one
producer there: the schema-shape error, and the type, enum, pattern
(non-matching and invalid-pattern alike) and required checks. -/
theorem claim_C10_rootErrors_begin_colon_space :
    (∀ (v s : JValue), JValue.isInstDict s = false →
        validate v s = (false, [": Schema must be an object"])) ∧
    (∀ (v t : JValue) (r : List String), validateType v t "" = (false, r) →
        ∀ m ∈ r, ∃ tail, m = ": " ++ tail) ∧
    (∀ (v e : JValue), ∀ m ∈ (validateEnum v e "").2, ∃ tail, m = ": " ++ tail) ∧
    (∀ (sv pat : String), ∀ m ∈ (validatePattern sv pat "").2, ∃ tail, m = ": " ++ tail) ∧
    (∀ (vf : List (String × JValue)) (req : JValue),
        ∀ m ∈ (validateRequired vf req "").2, ∃ tail, m = ": " ++ tail) := by
  refine ⟨?_, ?_, ?_, ?_, ?_⟩
  · intro v s h
    unfold validate
    rw [validateValue_not_dict v s "" h]
    rfl
  · intro v t r h m hm
    have hmsg : r = [typeMismatchMsg v t ""] := by
      unfold validateType at h
      cases t <;> simp at h <;> split_ifs at h <;> simp_all
    subst hmsg
    rw [List.mem_singleton] at hm
    subst hm
    unfold typeMismatchMsg
    cases t
    case arr ts =>
      exact root_colon_value (pyReprStr (pyStr v)) " is not one of types " (pyStr (.arr ts))
    all_goals exact root_colon_value (pyReprStr (pyStr v)) " is not of type " (pyStr _)
  · intro v e m hm
    unfold validateEnum at hm
    split_ifs at hm with h
    · simp at hm
    · simp at hm
      subst hm
      exact root_colon_value (pyReprStr (pyStr v)) " is not in enum " (pyStr e)
  · intro sv pat m hm
    unfold validatePattern at hm
    cases hp : parsePattern pat with
    | none =>
      rw [hp] at hm
      simp at hm
      subst hm
      exact colon_append _ _ (colon_append _ _ (colon_append _ _
        ⟨"Invalid regex pattern ", rfl⟩))
    | some r =>
      rw [hp] at hm
      by_cases h : matchStart r sv.data = true
      · simp [h] at hm
      · simp [h] at hm
        subst hm
        exact colon_append _ _ (colon_append _ _ (colon_append _ _ (colon_append _ _
          (colon_append _ _ (colon_append _ _ (colon_append _ _ (colon_append _ _
            (colon_append _ _ ⟨"String ", rfl⟩))))))))
  · intro vf req m hm
    unfold validateRequired at hm
    have main : ∀ (props : List JValue) (m2 : String),
        m2 ∈ (requiredLoop vf props "").2 → ∃ tail, m2 = ": " ++ tail := by
      intro props
      induction props with
      | nil =>
        intro m2 hm2
        simp [requiredLoop] at hm2
      | cons q rest ih =>
        intro m2 hm2
        rw [requiredLoop] at hm2
        split_ifs at hm2 with h
        · exact ih m2 hm2
        · simp at hm2
          rcases hm2 with rfl | hm3
          · exact colon_append _ _ (colon_append _ _ (colon_append _ _
              ⟨"Missing required property ", rfl⟩))
          · exact ih m2 hm3
    exact main (reqIter req) m hm

/-- C10 witness: a root schema-shape error starts with `": "`. -/
theorem claim_C10_witness :
    validate (.int 1) (.str "nope") = (false, [": Schema must be an object"]) :=
  claim_C10_rootErrors_begin_colon_space.1 (.int 1) (.str "nope") rfl
